import Mathlib

/-
Verification development for the Excel comparison tool (src/app.py).

The embedding models a pandas DataFrame as a rectangular `Table`:
a list of column names plus a list of rows (each a list of cells).
Cell values are scalars: strings, integers, dates, or a missing marker
(pandas NaN / NaT).  Python's `str()` of a missing value is modelled as
the canonical string "nan"; `str.strip` / `str.lower` are modelled on
ASCII (the only alphabet the tool is exercised with).

Date parsing (`pd.to_datetime(..., errors='coerce')`) is a third-party
black box; it is modelled as an arbitrary parameter
`parse : Value → Option (Nat × Nat × Nat)` returning a calendar date on
success and `none` on failure (NaT), so every theorem quantifying over
`parse` holds for any parsing behaviour.

`pd.merge(..., on='keycolumn', suffixes=('_file1','_file2'), how='outer',
indicator=True)` is modelled with standard many-to-many outer-join
semantics; overlapping non-key columns receive the suffixes, and the
merge is rejected (as modern pandas rejects it) when the resulting
column labels would collide, so that name lookups in the merged frame
are unambiguous.
-/

inductive Value where
  | str (s : String)
  | int (n : Int)
  | date (y m d : Nat)
  | missing
deriving DecidableEq, Repr

/-- ASCII lower-casing of a character, as `str.lower` does on ASCII. -/
def lowerChar (c : Char) : Char :=
  if 'A' ≤ c ∧ c ≤ 'Z' then Char.ofNat (c.toNat + 32) else c

/-- `pandas.Series.str.lower` / Python `str.lower` on ASCII strings. -/
def lowerStr (x : String) : String :=
  String.mk (x.data.map lowerChar)

/-- Python `str.strip` whitespace test. -/
def isWs (c : Char) : Bool :=
  c = ' ' || c = '\t' || c = '\n' || c = '\r'

/-- Python `str.strip`: drop leading and trailing whitespace. -/
def trimStr (x : String) : String :=
  String.mk (((x.data.dropWhile isWs).reverse.dropWhile isWs).reverse)

/-- Python `str()` of a cell value: strings unchanged, integers in
decimal, dates as `y-m-d`, missing (NaN) as `"nan"`. -/
def pyStr : Value → String
  | Value.str s => s
  | Value.int n => toString n
  | Value.date y m d => toString y ++ "-" ++ toString m ++ "-" ++ toString d
  | Value.missing => "nan"

/-- A pandas DataFrame: ordered column labels plus rows of cells. -/
structure Table where
  cols : List String
  rows : List (List Value)
deriving DecidableEq, Repr

def emptyTable : Table := ⟨[], []⟩

/-- The comparison configuration (the JSON config consumed by
`compare_files`): `config['file1']['key_column']`,
`config['file2']['key_column']`, `columns_to_compare`,
`date_columns` (default `[]`), `decimal_columns` (default `[]`). -/
structure Config where
  file1_key_column : String
  file2_key_column : String
  columns_to_compare : List String
  date_columns : List String
  decimal_columns : List String
deriving DecidableEq, Repr

/-- The Python exceptions the pipeline can raise. -/
inductive PyError where
  | keyError (c : String)
  | valueError (msg : String)
deriving DecidableEq, Repr

/-- The four report sections returned by `compare_files`. -/
structure Report where
  summary : Table
  detail : Table
  missingInFile1 : Table
  missingInFile2 : Table
deriving DecidableEq, Repr

/-- Index of the first column with the given label (`df.columns.get_loc`). -/
def colIdx (cols : List String) (c : String) : Option Nat :=
  cols.findIdx? (fun x => x = c)

/-- Cell of a row at a labelled column; missing when the label is absent. -/
def rowGetD (cols : List String) (row : List Value) (c : String) : Value :=
  match colIdx cols c with
  | some j => row.getD j Value.missing
  | none => Value.missing

/-- The join-key cell of a row, given the key column's index. -/
def keyVal (j : Nat) (row : List Value) : Value :=
  row.getD j Value.missing

/-- A row padded (with missing markers) or truncated to the frame width;
pandas rows always have exactly one cell per column. -/
def padRow (n : Nat) (row : List Value) : List Value :=
  (List.range n).map (fun i => row.getD i Value.missing)

/-- `df.rename(columns={key: 'KeyColumn'})`: relabel the designated key
column (exact, case-sensitive match), leaving everything else alone. -/
def renameKey (t : Table) (key : String) : Table :=
  ⟨t.cols.map (fun c => if c = key then "KeyColumn" else c), t.rows⟩

/-- `df.columns = df.columns.str.lower()`. -/
def lowerCols (t : Table) : Table :=
  ⟨t.cols.map lowerStr, t.rows⟩

/-- One cell through `pd.to_datetime(..., errors='coerce').dt.date`:
a date on success, the missing marker (NaT) on failure. -/
def normCell (parse : Value → Option (Nat × Nat × Nat)) (v : Value) : Value :=
  match parse v with
  | some (y, m, d) => Value.date y m d
  | none => Value.missing

/-- `df[col] = pd.to_datetime(df[col], errors='coerce').dt.date` for a
single column label, a no-op when the label is absent. -/
def normalizeColumn (parse : Value → Option (Nat × Nat × Nat)) (t : Table)
    (c : String) : Table :=
  match colIdx t.cols c with
  | some j =>
      ⟨t.cols, t.rows.map (fun row => row.set j (normCell parse (row.getD j Value.missing)))⟩
  | none => t

/-- `normalize_dates(df, date_columns)` from src/app.py: loop over the
configured date columns, converting each one present in the frame. -/
def normalize_dates (parse : Value → Option (Nat × Nat × Nat)) (t : Table)
    (date_columns : List String) : Table :=
  date_columns.foldl (fun acc c => normalizeColumn parse acc c) t

/-- The preprocessing applied to each input frame by `compare_files`:
rename the key column, lower-case all column labels, normalize dates. -/
def prepTable (parse : Value → Option (Nat × Nat × Nat)) (t : Table)
    (key : String) (dcols : List String) : Table :=
  normalize_dates parse (lowerCols (renameKey t key)) dcols

/-- Lexicographic comparison of character lists. -/
def charListLe : List Char → List Char → Bool
  | [], _ => true
  | _ :: _, [] => false
  | a :: as, b :: bs => if a = b then charListLe as bs else decide (a < b)

/-- Rank used to order cells of different kinds. -/
def valueRank : Value → Nat
  | Value.missing => 0
  | Value.int _ => 1
  | Value.date _ _ _ => 2
  | Value.str _ => 3

/-- A total order on cell values used by the sort model. -/
def valueLe : Value → Value → Bool
  | Value.int a, Value.int b => decide (a ≤ b)
  | Value.str a, Value.str b => charListLe a.data b.data
  | Value.date y m d, Value.date y' m' d' =>
      decide (y < y' ∨ (y = y' ∧ (m < m' ∨ (m = m' ∧ d ≤ d'))))
  | a, b => decide (valueRank a ≤ valueRank b)

/-- Insertion into a sorted list of rows. -/
def insertRow (le : List Value → List Value → Bool) (x : List Value) :
    List (List Value) → List (List Value)
  | [] => [x]
  | y :: ys => if le x y then x :: y :: ys else y :: insertRow le x ys

/-- Insertion sort over rows. -/
def sortRows (le : List Value → List Value → Bool) :
    List (List Value) → List (List Value)
  | [] => []
  | x :: xs => insertRow le x (sortRows le xs)

/-- `df.sort_values(by='keycolumn').reset_index(drop=True)`: raises a
`KeyError` when no column is labelled `keycolumn`, otherwise reorders
the rows so the key column is ascending. -/
def sortValues (t : Table) : Except PyError Table :=
  match colIdx t.cols "keycolumn" with
  | some j =>
      Except.ok ⟨t.cols, sortRows (fun r1 r2 => valueLe (keyVal j r1) (keyVal j r2)) t.rows⟩
  | none => Except.error (PyError.keyError "keycolumn")

/-- Column labels of the merged frame: left labels (suffixed `_file1`
where they collide with a right label other than the key), then right
labels without the key column (suffixed `_file2` on collision), then
the indicator column `_merge`. -/
def mergedCols (cols1 cols2 : List String) (j2 : Nat) : List String :=
  cols1.map (fun c => if c ≠ "keycolumn" ∧ c ∈ cols2 then c ++ "_file1" else c)
    ++ (cols2.eraseIdx j2).map (fun c => if c ≠ "keycolumn" ∧ c ∈ cols1 then c ++ "_file2" else c)
    ++ ["_merge"]

/-- The key-matched rows of the outer join: every combination of a left
row and a right row with equal keys (many-to-many semantics), the right
key column dropped, tagged `both`. -/
def bothRows (a b : Table) (j1 j2 : Nat) : List (List Value) :=
  a.rows.flatMap (fun r1 =>
    ((b.rows.filter (fun r2 => keyVal j2 r2 == keyVal j1 r1)).map (fun r2 =>
      padRow a.cols.length r1 ++ (padRow b.cols.length r2).eraseIdx j2 ++ [Value.str "both"])))

/-- The left rows without a key match, right cells filled with missing
markers, tagged `left_only`. -/
def leftOnlyRows (a b : Table) (j1 j2 : Nat) : List (List Value) :=
  (a.rows.filter (fun r1 => !((b.rows.map (keyVal j2)).contains (keyVal j1 r1)))).map
    (fun r1 => padRow a.cols.length r1 ++ List.replicate (b.cols.length - 1) Value.missing
      ++ [Value.str "left_only"])

/-- The right rows without a key match, left cells missing except the
key cell, tagged `right_only`. -/
def rightOnlyRows (a b : Table) (j1 j2 : Nat) : List (List Value) :=
  (b.rows.filter (fun r2 => !((a.rows.map (keyVal j1)).contains (keyVal j2 r2)))).map
    (fun r2 => (List.range a.cols.length).map (fun i => if i = j1 then keyVal j2 r2 else Value.missing)
      ++ (padRow b.cols.length r2).eraseIdx j2 ++ [Value.str "right_only"])

/-- `pd.merge(df1, df2, on='keycolumn', suffixes=('_file1','_file2'),
how='outer', indicator=True)`: many-to-many full outer join.  Raises a
`KeyError` when either frame lacks the key column, and (as pandas does)
an error when the merged frame would carry duplicate column labels
(including a pre-existing `_merge` column clashing with the
indicator). -/
def mergeTables (a b : Table) : Except PyError Table :=
  match colIdx a.cols "keycolumn", colIdx b.cols "keycolumn" with
  | some j1, some j2 =>
    if (mergedCols a.cols b.cols j2).Nodup then
      Except.ok ⟨mergedCols a.cols b.cols j2,
        bothRows a b j1 j2 ++ leftOnlyRows a b j1 j2 ++ rightOnlyRows a b j1 j2⟩
    else
      Except.error (PyError.valueError "duplicate columns in merge result")
  | _, _ => Except.error (PyError.keyError "keycolumn")

/-- The per-column verdict of the diff loop: look the compared column up
on both sides through the constructed labels `col_file1` / `col_file2`;
when both are present, compare the trimmed string forms, else report
`Not Available`. -/
def verdictCell (cols : List String) (row : List Value) (column : String) : Value :=
  let c1 := column ++ "_file1"
  let c2 := column ++ "_file2"
  if c1 ∈ cols ∧ c2 ∈ cols then
    let val1 := trimStr (pyStr (rowGetD cols row c1))
    let val2 := trimStr (pyStr (rowGetD cols row c2))
    if val1 = val2 then Value.str "Matched" else Value.str (val1 ++ " | " ++ val2)
  else Value.str "Not Available"

/-- The `_merge` indicator of a merged row. -/
def tagOf (cols : List String) (row : List Value) : Value :=
  rowGetD cols row "_merge"

/-- The report assembly of `compare_files`: the summary counts, the
detailed per-column comparison of key-matched rows, and the two
missing-key frames. -/
def buildReport (m : Table) (columns_to_compare : List String) : Report :=
  let matched_records := (m.rows.filter (fun r => tagOf m.cols r == Value.str "both")).length
  let not_matched_records := (m.rows.filter (fun r => !(tagOf m.cols r == Value.str "both"))).length
  let summary : Table :=
    ⟨["Description", "Count"],
     [[Value.str "Matched Records", Value.int matched_records],
      [Value.str "Not Matched Records", Value.int not_matched_records]]⟩
  let comparison_df : Table :=
    ⟨"KeyColumn" :: columns_to_compare,
     (m.rows.filter (fun r => tagOf m.cols r == Value.str "both")).map (fun r =>
       rowGetD m.cols r "keycolumn" :: columns_to_compare.map (verdictCell m.cols r))⟩
  let missing_in_file1 : Table :=
    ⟨["keycolumn"],
     (m.rows.filter (fun r => tagOf m.cols r == Value.str "right_only")).map
       (fun r => [rowGetD m.cols r "keycolumn"])⟩
  let missing_in_file2 : Table :=
    ⟨["keycolumn"],
     (m.rows.filter (fun r => tagOf m.cols r == Value.str "left_only")).map
       (fun r => [rowGetD m.cols r "keycolumn"])⟩
  ⟨summary, comparison_df, missing_in_file1, missing_in_file2⟩

/-- `compare_files(df1, df2, config)` from src/app.py: lower-case the
configured column lists, rename/lower/normalize both frames, sort each
by the key, outer-join, and assemble the four report sections. -/
def compare_files (parse : Value → Option (Nat × Nat × Nat)) (df1 df2 : Table)
    (config : Config) : Except PyError Report :=
  let columns_to_compare := config.columns_to_compare.map lowerStr
  let date_columns := config.date_columns.map lowerStr
  let _decimal_columns := config.decimal_columns
  let a0 := prepTable parse df1 config.file1_key_column date_columns
  let b0 := prepTable parse df2 config.file2_key_column date_columns
  match sortValues a0 with
  | Except.error e => Except.error e
  | Except.ok a =>
    match sortValues b0 with
    | Except.error e => Except.error e
    | Except.ok b =>
      match mergeTables a b with
      | Except.error e => Except.error e
      | Except.ok m => Except.ok (buildReport m columns_to_compare)

/-- In-place update of a live DataFrame object (heap cell). -/
def heapSet (heap : List Table) (r : Nat) (t : Table) : List Table :=
  heap.set r t

/-- `compare_files` at the Python object level.  The heap holds the live
DataFrame objects; `i` and `j` are the caller's references to the two
input frames.  `df.rename(...)` and `df.sort_values(...)` allocate fresh
objects (appended to the heap); the column-label assignment and
`normalize_dates` mutate their argument in place — but only ever the
freshly allocated copies.  Returns the final heap and the result. -/
def compare_files_heap (parse : Value → Option (Nat × Nat × Nat))
    (heap : List Table) (i j : Nat) (config : Config) :
    List Table × Except PyError Report :=
  let columns_to_compare := config.columns_to_compare.map lowerStr
  let date_columns := config.date_columns.map lowerStr
  let heap1 := heap ++ [renameKey (heap.getD i emptyTable) config.file1_key_column]
  let i1 := heap.length
  let heap2 := heap1 ++ [renameKey (heap1.getD j emptyTable) config.file2_key_column]
  let j1 := heap1.length
  let heap3 := heapSet heap2 i1 (lowerCols (heap2.getD i1 emptyTable))
  let heap4 := heapSet heap3 j1 (lowerCols (heap3.getD j1 emptyTable))
  let heap5 := heapSet heap4 i1 (normalize_dates parse (heap4.getD i1 emptyTable) date_columns)
  let heap6 := heapSet heap5 j1 (normalize_dates parse (heap5.getD j1 emptyTable) date_columns)
  match sortValues (heap6.getD i1 emptyTable) with
  | Except.error e => (heap6, Except.error e)
  | Except.ok a =>
    let heap7 := heap6 ++ [a]
    match sortValues (heap7.getD j1 emptyTable) with
    | Except.error e => (heap7, Except.error e)
    | Except.ok b =>
      let heap8 := heap7 ++ [b]
      match mergeTables (heap8.getD (heap6.length) emptyTable) (heap8.getD (heap7.length) emptyTable) with
      | Except.error e => (heap8, Except.error e)
      | Except.ok m => (heap8 ++ [m], Except.ok (buildReport m columns_to_compare))

/-- A degenerate date parser used to instantiate theorems on concrete
inputs: every parse fails (every cell coerces to NaT). -/
def parse0 : Value → Option (Nat × Nat × Nat) := fun _ => none

/-- A small parser used to instantiate theorems on concrete inputs:
recognises exactly the string "2024-01-01". -/
def parse1 : Value → Option (Nat × Nat × Nat) := fun v =>
  match v with
  | Value.str "2024-01-01" => some (2024, 1, 1)
  | _ => none

/-- The join keys of a frame: the contents of its `keycolumn` column
(empty when the frame has no such column). -/
def tableKeys (t : Table) : List Value :=
  match colIdx t.cols "keycolumn" with
  | some j => t.rows.map (keyVal j)
  | none => []

/-- The `Count` cell of the `Matched Records` summary row. -/
def matchedCount (rep : Report) : Value :=
  (rep.summary.rows.getD 0 []).getD 1 Value.missing

/-- The `Count` cell of the `Not Matched Records` summary row. -/
def notMatchedCount (rep : Report) : Value :=
  (rep.summary.rows.getD 1 []).getD 1 Value.missing

instance : DecidableEq (Except PyError Report) := fun a b =>
  match a, b with
  | Except.ok x, Except.ok y => decidable_of_iff (x = y) (by simp)
  | Except.error x, Except.error y => decidable_of_iff (x = y) (by simp)
  | Except.ok _, Except.error _ => isFalse (by simp)
  | Except.error _, Except.ok _ => isFalse (by simp)

instance : DecidableEq (Except PyError Table) := fun a b =>
  match a, b with
  | Except.ok x, Except.ok y => decidable_of_iff (x = y) (by simp)
  | Except.error x, Except.error y => decidable_of_iff (x = y) (by simp)
  | Except.ok _, Except.error _ => isFalse (by simp)
  | Except.error _, Except.ok _ => isFalse (by simp)

/-! Auxiliary string facts: appending a suffix is injective on the stem,
and the suffixed labels generated by the merge can never collide with
the fixed labels `keycolumn` and `_merge`, nor can `_file2`-suffixed
labels collide with `_file1`-suffixed ones.  All are read off the last
character. -/

theorem string_append_right_cancel {c d s : String} (h : c ++ s = d ++ s) : c = d := by
  apply String.ext
  have h2 := congrArg String.data h
  simp only [String.data_append] at h2
  exact List.append_cancel_right h2

theorem string_append_getLast {s : String} (c : String) {x : Char}
    (hx : s.data.getLast? = some x) : (c ++ s).data.getLast? = some x := by
  simp [String.data_append, List.getLast?_append, hx]

theorem append_file2_ne_append_file1 (c d : String) : c ++ "_file2" ≠ d ++ "_file1" := by
  intro h
  have h1 : (c ++ "_file2").data.getLast? = some '2' :=
    string_append_getLast c (by decide)
  have h2 : (d ++ "_file1").data.getLast? = some '1' :=
    string_append_getLast d (by decide)
  rw [h, h2] at h1
  exact absurd (Option.some.inj h1) (by decide)

theorem append_file1_ne_keycolumn (c : String) : c ++ "_file1" ≠ "keycolumn" := by
  intro h
  have h1 : (c ++ "_file1").data.getLast? = some '1' :=
    string_append_getLast c (by decide)
  rw [h] at h1
  exact absurd (Option.some.inj h1) (by decide)

theorem append_file2_ne_keycolumn (c : String) : c ++ "_file2" ≠ "keycolumn" := by
  intro h
  have h1 : (c ++ "_file2").data.getLast? = some '2' :=
    string_append_getLast c (by decide)
  rw [h] at h1
  exact absurd (Option.some.inj h1) (by decide)

theorem append_file1_ne_merge (c : String) : c ++ "_file1" ≠ "_merge" := by
  intro h
  have h1 : (c ++ "_file1").data.getLast? = some '1' :=
    string_append_getLast c (by decide)
  rw [h] at h1
  exact absurd (Option.some.inj h1) (by decide)

theorem append_file2_ne_merge (c : String) : c ++ "_file2" ≠ "_merge" := by
  intro h
  have h1 : (c ++ "_file2").data.getLast? = some '2' :=
    string_append_getLast c (by decide)
  rw [h] at h1
  exact absurd (Option.some.inj h1) (by decide)

/-! The insertion-sort model permutes the rows. -/

theorem insertRow_perm (le : List Value → List Value → Bool) (x : List Value)
    (l : List (List Value)) : (insertRow le x l).Perm (x :: l) := by
  induction l with
  | nil => exact List.Perm.refl _
  | cons y ys ih =>
    rw [insertRow]
    by_cases h : le x y = true
    · simp [h]
    · simp only [h, if_false]
      exact (List.Perm.cons y ih).trans (List.Perm.swap x y ys)

theorem sortRows_perm (le : List Value → List Value → Bool) (l : List (List Value)) :
    (sortRows le l).Perm l := by
  induction l with
  | nil => exact List.Perm.refl _
  | cons x xs ih =>
    rw [sortRows]
    exact (insertRow_perm le x (sortRows le xs)).trans (List.Perm.cons x ih)

/-! Facts about column lookup. -/

theorem colIdx_eq_none_iff (cols : List String) (c : String) :
    colIdx cols c = none ↔ c ∉ cols := by
  simp only [colIdx, List.findIdx?_eq_none_iff]
  constructor
  · intro h hc
    have := h c hc
    simp at this
  · intro h x hx
    simp only [decide_eq_false_iff_not]
    intro hxc
    exact h (hxc ▸ hx)

theorem colIdx_lt {cols : List String} {c : String} {j : Nat}
    (h : colIdx cols c = some j) : j < cols.length := by
  rw [colIdx, List.findIdx?_eq_some_iff_getElem] at h
  exact h.1

theorem colIdx_getElem {cols : List String} {c : String} {j : Nat}
    (h : colIdx cols c = some j) : cols[j]? = some c := by
  rw [colIdx, List.findIdx?_eq_some_iff_getElem] at h
  obtain ⟨hj, hc, -⟩ := h
  rw [List.getElem?_eq_some_iff]
  exact ⟨hj, by simpa using hc⟩

theorem colIdx_of_nodup {cols : List String} {c : String} {j : Nat}
    (hnd : cols.Nodup) (hc : cols[j]? = some c) : colIdx cols c = some j := by
  rw [List.getElem?_eq_some_iff] at hc
  obtain ⟨hj, hc⟩ := hc
  rw [colIdx, List.findIdx?_eq_some_iff_getElem]
  refine ⟨hj, by simpa using hc, ?_⟩
  intro i hi
  simp only [decide_eq_true_eq]
  intro hic
  have hinj := List.nodup_iff_injective_getElem.mp hnd
  have heq : (⟨i, Nat.lt_trans hi hj⟩ : Fin cols.length) = ⟨j, hj⟩ := by
    apply hinj
    simp [hic, hc]
  have : i = j := congrArg Fin.val heq
  omega

/-! Preservation facts for the preprocessing steps. -/

theorem normalizeColumn_cols (p : Value → Option (Nat × Nat × Nat)) (t : Table) (c : String) :
    (normalizeColumn p t c).cols = t.cols := by
  unfold normalizeColumn
  split <;> rfl

theorem normalizeColumn_rows_length (p : Value → Option (Nat × Nat × Nat)) (t : Table)
    (c : String) : (normalizeColumn p t c).rows.length = t.rows.length := by
  unfold normalizeColumn
  split <;> simp

theorem normalize_dates_cols (p : Value → Option (Nat × Nat × Nat)) :
    ∀ (dc : List String) (t : Table), (normalize_dates p t dc).cols = t.cols
  | [], _ => rfl
  | c :: rest, t => by
    show (normalize_dates p (normalizeColumn p t c) rest).cols = t.cols
    rw [normalize_dates_cols p rest (normalizeColumn p t c), normalizeColumn_cols]

theorem normalize_dates_rows_length (p : Value → Option (Nat × Nat × Nat)) :
    ∀ (dc : List String) (t : Table), (normalize_dates p t dc).rows.length = t.rows.length
  | [], _ => rfl
  | c :: rest, t => by
    show (normalize_dates p (normalizeColumn p t c) rest).rows.length = t.rows.length
    rw [normalize_dates_rows_length p rest (normalizeColumn p t c), normalizeColumn_rows_length]

theorem prepTable_cols (p : Value → Option (Nat × Nat × Nat)) (t : Table) (k : String)
    (dc : List String) :
    (prepTable p t k dc).cols = t.cols.map (fun c => lowerStr (if c = k then "KeyColumn" else c)) := by
  unfold prepTable
  rw [normalize_dates_cols]
  simp [lowerCols, renameKey, List.map_map, Function.comp]

theorem prepTable_rows_length (p : Value → Option (Nat × Nat × Nat)) (t : Table) (k : String)
    (dc : List String) : (prepTable p t k dc).rows.length = t.rows.length := by
  unfold prepTable
  rw [normalize_dates_rows_length]
  rfl

/-! Characterization of the sort step. -/

theorem sortValues_ok {t u : Table} (h : sortValues t = Except.ok u) :
    u.cols = t.cols ∧ u.rows.Perm t.rows := by
  unfold sortValues at h
  cases hc : colIdx t.cols "keycolumn" with
  | none => rw [hc] at h; exact absurd h (by simp)
  | some j =>
    rw [hc] at h
    have h2 := Except.ok.inj h
    subst h2
    exact ⟨rfl, sortRows_perm _ _⟩

theorem sortValues_error_iff (t : Table) :
    sortValues t = Except.error (PyError.keyError "keycolumn") ↔ "keycolumn" ∉ t.cols := by
  unfold sortValues
  cases hc : colIdx t.cols "keycolumn" with
  | none =>
    simp [(colIdx_eq_none_iff t.cols "keycolumn").mp hc]
  | some j =>
    have : "keycolumn" ∈ t.cols := List.getElem?_mem (colIdx_getElem hc)
    simp [this]

theorem sortValues_isOk {t : Table} (h : "keycolumn" ∈ t.cols) :
    ∃ u, sortValues t = Except.ok u := by
  unfold sortValues
  cases hc : colIdx t.cols "keycolumn" with
  | none => exact absurd ((colIdx_eq_none_iff t.cols "keycolumn").mp hc) (by simpa using h)
  | some j => exact ⟨_, rfl⟩

theorem tableKeys_perm_of_sortValues {t u : Table} (h : sortValues t = Except.ok u) :
    (tableKeys u).Perm (tableKeys t) := by
  obtain ⟨hc, hp⟩ := sortValues_ok h
  unfold tableKeys
  rw [hc]
  cases colIdx t.cols "keycolumn" with
  | none => exact List.Perm.refl _
  | some j => exact hp.map _

/-! Structural facts about the merged frame. -/

theorem mergeTables_ok {a b m : Table} (h : mergeTables a b = Except.ok m) :
    ∃ j1 j2, colIdx a.cols "keycolumn" = some j1 ∧ colIdx b.cols "keycolumn" = some j2 ∧
      (mergedCols a.cols b.cols j2).Nodup ∧
      m = ⟨mergedCols a.cols b.cols j2,
        bothRows a b j1 j2 ++ leftOnlyRows a b j1 j2 ++ rightOnlyRows a b j1 j2⟩ := by
  unfold mergeTables at h
  split at h
  · rename_i j1 j2 h1 h2
    split at h
    · rename_i hnd
      exact ⟨j1, j2, h1, h2, hnd, (Except.ok.inj h).symm⟩
    · exact absurd h (by simp)
  · exact absurd h (by simp)

theorem length_padRow (n : Nat) (r : List Value) : (padRow n r).length = n := by
  simp [padRow]

theorem getD_padRow {n i : Nat} (r : List Value) (h : i < n) (d : Value) :
    (padRow n r).getD i d = r.getD i Value.missing := by
  simp [padRow, List.getD_eq_getElem?_getD, List.getElem?_range h]

theorem mergedCols_getElem_merge {cols1 cols2 : List String} {j2 : Nat}
    (hj2 : j2 < cols2.length) :
    (mergedCols cols1 cols2 j2)[cols1.length + (cols2.length - 1)]? = some "_merge" := by
  rw [mergedCols, List.append_assoc]
  rw [List.getElem?_append_right (by simp)]
  rw [List.getElem?_append_right (by simp [List.length_eraseIdx, hj2])]
  simp [List.length_eraseIdx, hj2]

theorem mergedCols_getElem_key {cols1 : List String} (cols2 : List String) (j2 : Nat)
    {j1 : Nat} (h : cols1[j1]? = some "keycolumn") :
    (mergedCols cols1 cols2 j2)[j1]? = some "keycolumn" := by
  have hj1 : j1 < cols1.length := by
    rw [List.getElem?_eq_some_iff] at h
    exact h.1
  rw [mergedCols, List.append_assoc]
  rw [List.getElem?_append_left (by simpa using hj1)]
  simp [h]

theorem rowGetD_eq {cols : List String} {row : List Value} {c : String} {j : Nat}
    (h : colIdx cols c = some j) : rowGetD cols row c = row.getD j Value.missing := by
  rw [rowGetD, h]

theorem tag_of_shaped_row {cols1 cols2 : List String} {j2 : Nat}
    (hnd : (mergedCols cols1 cols2 j2).Nodup) (hj2 : j2 < cols2.length)
    (seg1 seg2 : List Value) (v : Value)
    (h1 : seg1.length = cols1.length) (h2 : seg2.length = cols2.length - 1) :
    tagOf (mergedCols cols1 cols2 j2) (seg1 ++ seg2 ++ [v]) = v := by
  have hc : colIdx (mergedCols cols1 cols2 j2) "_merge"
      = some (cols1.length + (cols2.length - 1)) :=
    colIdx_of_nodup hnd (mergedCols_getElem_merge hj2)
  rw [tagOf, rowGetD_eq hc]
  rw [List.getD_eq_getElem?_getD]
  rw [List.getElem?_append_right (by simp [h1, h2])]
  simp [h1, h2]

theorem key_of_shaped_row {cols1 cols2 : List String} {j2 : Nat} {j1 : Nat}
    (hnd : (mergedCols cols1 cols2 j2).Nodup) (hj1get : cols1[j1]? = some "keycolumn")
    (seg1 rest : List Value) (h1 : seg1.length = cols1.length) :
    rowGetD (mergedCols cols1 cols2 j2) (seg1 ++ rest) "keycolumn" = seg1.getD j1 Value.missing := by
  have hj1 : j1 < cols1.length := by
    rw [List.getElem?_eq_some_iff] at hj1get
    exact hj1get.1
  have hc : colIdx (mergedCols cols1 cols2 j2) "keycolumn" = some j1 :=
    colIdx_of_nodup hnd (mergedCols_getElem_key cols2 j2 hj1get)
  rw [rowGetD_eq hc]
  rw [List.getD_eq_getElem?_getD]
  rw [List.getElem?_append_left (by omega)]
  rw [← List.getD_eq_getElem?_getD]

/-! Membership characterizations of the three merged row groups. -/

theorem mem_bothRows_iff {a b : Table} {j1 j2 : Nat} {r : List Value} :
    r ∈ bothRows a b j1 j2 ↔ ∃ r1 ∈ a.rows, ∃ r2 ∈ b.rows, keyVal j2 r2 = keyVal j1 r1 ∧
      r = padRow a.cols.length r1 ++ (padRow b.cols.length r2).eraseIdx j2
        ++ [Value.str "both"] := by
  rw [bothRows, List.mem_flatMap]
  constructor
  · rintro ⟨r1, hr1, hr⟩
    rw [List.mem_map] at hr
    obtain ⟨r2, hr2, rfl⟩ := hr
    rw [List.mem_filter] at hr2
    exact ⟨r1, hr1, r2, hr2.1, by simpa using hr2.2, rfl⟩
  · rintro ⟨r1, hr1, r2, hr2, hk, rfl⟩
    exact ⟨r1, hr1, List.mem_map.mpr ⟨r2, List.mem_filter.mpr ⟨hr2, by simpa using hk⟩, rfl⟩⟩

theorem mem_leftOnlyRows_iff {a b : Table} {j1 j2 : Nat} {r : List Value} :
    r ∈ leftOnlyRows a b j1 j2 ↔ ∃ r1 ∈ a.rows, keyVal j1 r1 ∉ b.rows.map (keyVal j2) ∧
      r = padRow a.cols.length r1 ++ List.replicate (b.cols.length - 1) Value.missing
        ++ [Value.str "left_only"] := by
  rw [leftOnlyRows, List.mem_map]
  constructor
  · rintro ⟨r1, hr1, rfl⟩
    rw [List.mem_filter] at hr1
    exact ⟨r1, hr1.1, by simpa using hr1.2, rfl⟩
  · rintro ⟨r1, hr1, hk, rfl⟩
    exact ⟨r1, List.mem_filter.mpr ⟨hr1, by simpa using hk⟩, rfl⟩

theorem mem_rightOnlyRows_iff {a b : Table} {j1 j2 : Nat} {r : List Value} :
    r ∈ rightOnlyRows a b j1 j2 ↔ ∃ r2 ∈ b.rows, keyVal j2 r2 ∉ a.rows.map (keyVal j1) ∧
      r = (List.range a.cols.length).map (fun i => if i = j1 then keyVal j2 r2 else Value.missing)
        ++ (padRow b.cols.length r2).eraseIdx j2 ++ [Value.str "right_only"] := by
  rw [rightOnlyRows, List.mem_map]
  constructor
  · rintro ⟨r2, hr2, rfl⟩
    rw [List.mem_filter] at hr2
    exact ⟨r2, hr2.1, by simpa using hr2.2, rfl⟩
  · rintro ⟨r2, hr2, hk, rfl⟩
    exact ⟨r2, List.mem_filter.mpr ⟨hr2, by simpa using hk⟩, rfl⟩

/-! Tag and key extraction on merged rows. -/

theorem tagOf_of_mem_bothRows {a b : Table} {j1 j2 : Nat} {r : List Value}
    (hj2 : colIdx b.cols "keycolumn" = some j2)
    (hnd : (mergedCols a.cols b.cols j2).Nodup)
    (hr : r ∈ bothRows a b j1 j2) :
    tagOf (mergedCols a.cols b.cols j2) r = Value.str "both" := by
  obtain ⟨r1, hr1, r2, hr2, hk, rfl⟩ := mem_bothRows_iff.mp hr
  exact tag_of_shaped_row hnd (colIdx_lt hj2) _ _ _ (length_padRow _ _)
    (by simp [List.length_eraseIdx, length_padRow, colIdx_lt hj2])

theorem tagOf_of_mem_leftOnlyRows {a b : Table} {j1 j2 : Nat} {r : List Value}
    (hj2 : colIdx b.cols "keycolumn" = some j2)
    (hnd : (mergedCols a.cols b.cols j2).Nodup)
    (hr : r ∈ leftOnlyRows a b j1 j2) :
    tagOf (mergedCols a.cols b.cols j2) r = Value.str "left_only" := by
  obtain ⟨r1, hr1, hk, rfl⟩ := mem_leftOnlyRows_iff.mp hr
  exact tag_of_shaped_row hnd (colIdx_lt hj2) _ _ _ (length_padRow _ _) (by simp)

theorem tagOf_of_mem_rightOnlyRows {a b : Table} {j1 j2 : Nat} {r : List Value}
    (hj2 : colIdx b.cols "keycolumn" = some j2)
    (hnd : (mergedCols a.cols b.cols j2).Nodup)
    (hr : r ∈ rightOnlyRows a b j1 j2) :
    tagOf (mergedCols a.cols b.cols j2) r = Value.str "right_only" := by
  obtain ⟨r2, hr2, hk, rfl⟩ := mem_rightOnlyRows_iff.mp hr
  exact tag_of_shaped_row hnd (colIdx_lt hj2) _ _ _ (by simp)
    (by simp [List.length_eraseIdx, length_padRow, colIdx_lt hj2])

theorem key_of_padded_row {cols1 cols2 : List String} {j1 j2 : Nat}
    (hnd : (mergedCols cols1 cols2 j2).Nodup) (hj1get : cols1[j1]? = some "keycolumn")
    (r1 rest : List Value) :
    rowGetD (mergedCols cols1 cols2 j2) (padRow cols1.length r1 ++ rest) "keycolumn"
      = keyVal j1 r1 := by
  have hj1 : j1 < cols1.length := by
    rw [List.getElem?_eq_some_iff] at hj1get
    exact hj1get.1
  rw [key_of_shaped_row hnd hj1get _ _ (length_padRow _ _), getD_padRow _ hj1]
  rfl

theorem key_of_rightOnly_row {cols1 cols2 : List String} {j1 j2 : Nat}
    (hnd : (mergedCols cols1 cols2 j2).Nodup) (hj1get : cols1[j1]? = some "keycolumn")
    (k : Value) (rest : List Value) :
    rowGetD (mergedCols cols1 cols2 j2)
      ((List.range cols1.length).map (fun i => if i = j1 then k else Value.missing) ++ rest)
      "keycolumn" = k := by
  have hj1 : j1 < cols1.length := by
    rw [List.getElem?_eq_some_iff] at hj1get
    exact hj1get.1
  rw [key_of_shaped_row hnd hj1get _ _ (by simp)]
  simp [List.getD_eq_getElem?_getD, List.getElem?_range hj1]

/-! The four report sections, computed over the merged structure. -/

theorem buildReport_missing1 {a b : Table} {j1 j2 : Nat} (ctc : List String)
    (hj1 : colIdx a.cols "keycolumn" = some j1) (hj2 : colIdx b.cols "keycolumn" = some j2)
    (hnd : (mergedCols a.cols b.cols j2).Nodup) :
    (buildReport ⟨mergedCols a.cols b.cols j2,
        bothRows a b j1 j2 ++ leftOnlyRows a b j1 j2 ++ rightOnlyRows a b j1 j2⟩
      ctc).missingInFile1.rows
    = (b.rows.filter (fun r2 => !((a.rows.map (keyVal j1)).contains (keyVal j2 r2)))).map
        (fun r2 => [keyVal j2 r2]) := by
  have hj1get : a.cols[j1]? = some "keycolumn" := colIdx_getElem hj1
  simp only [buildReport, List.filter_append]
  have hB : (bothRows a b j1 j2).filter
      (fun r => tagOf (mergedCols a.cols b.cols j2) r == Value.str "right_only") = [] := by
    apply List.filter_eq_nil_iff.mpr
    intro r hr
    rw [tagOf_of_mem_bothRows hj2 hnd hr]
    simp
  have hL : (leftOnlyRows a b j1 j2).filter
      (fun r => tagOf (mergedCols a.cols b.cols j2) r == Value.str "right_only") = [] := by
    apply List.filter_eq_nil_iff.mpr
    intro r hr
    rw [tagOf_of_mem_leftOnlyRows hj2 hnd hr]
    simp
  have hR : (rightOnlyRows a b j1 j2).filter
      (fun r => tagOf (mergedCols a.cols b.cols j2) r == Value.str "right_only")
      = rightOnlyRows a b j1 j2 := by
    apply List.filter_eq_self.mpr
    intro r hr
    rw [tagOf_of_mem_rightOnlyRows hj2 hnd hr]
    rfl
  rw [hB, hL, hR]
  simp only [List.nil_append]
  rw [rightOnlyRows, List.map_map]
  apply List.map_congr_left
  intro r2 hr2
  simp only [Function.comp]
  rw [List.append_assoc, key_of_rightOnly_row hnd hj1get]

theorem buildReport_missing2 {a b : Table} {j1 j2 : Nat} (ctc : List String)
    (hj1 : colIdx a.cols "keycolumn" = some j1) (hj2 : colIdx b.cols "keycolumn" = some j2)
    (hnd : (mergedCols a.cols b.cols j2).Nodup) :
    (buildReport ⟨mergedCols a.cols b.cols j2,
        bothRows a b j1 j2 ++ leftOnlyRows a b j1 j2 ++ rightOnlyRows a b j1 j2⟩
      ctc).missingInFile2.rows
    = (a.rows.filter (fun r1 => !((b.rows.map (keyVal j2)).contains (keyVal j1 r1)))).map
        (fun r1 => [keyVal j1 r1]) := by
  have hj1get : a.cols[j1]? = some "keycolumn" := colIdx_getElem hj1
  simp only [buildReport, List.filter_append]
  have hB : (bothRows a b j1 j2).filter
      (fun r => tagOf (mergedCols a.cols b.cols j2) r == Value.str "left_only") = [] := by
    apply List.filter_eq_nil_iff.mpr
    intro r hr
    rw [tagOf_of_mem_bothRows hj2 hnd hr]
    simp
  have hL : (leftOnlyRows a b j1 j2).filter
      (fun r => tagOf (mergedCols a.cols b.cols j2) r == Value.str "left_only")
      = leftOnlyRows a b j1 j2 := by
    apply List.filter_eq_self.mpr
    intro r hr
    rw [tagOf_of_mem_leftOnlyRows hj2 hnd hr]
    rfl
  have hR : (rightOnlyRows a b j1 j2).filter
      (fun r => tagOf (mergedCols a.cols b.cols j2) r == Value.str "left_only") = [] := by
    apply List.filter_eq_nil_iff.mpr
    intro r hr
    rw [tagOf_of_mem_rightOnlyRows hj2 hnd hr]
    simp
  rw [hB, hL, hR]
  simp only [List.nil_append, List.append_nil]
  rw [leftOnlyRows, List.map_map]
  apply List.map_congr_left
  intro r1 hr1
  simp only [Function.comp]
  rw [List.append_assoc, key_of_padded_row hnd hj1get]

theorem buildReport_matchedCount {a b : Table} {j1 j2 : Nat} (ctc : List String)
    (hj2 : colIdx b.cols "keycolumn" = some j2)
    (hnd : (mergedCols a.cols b.cols j2).Nodup) :
    matchedCount (buildReport ⟨mergedCols a.cols b.cols j2,
        bothRows a b j1 j2 ++ leftOnlyRows a b j1 j2 ++ rightOnlyRows a b j1 j2⟩ ctc)
      = Value.int ((bothRows a b j1 j2).length) := by
  simp only [matchedCount, buildReport, List.filter_append]
  have hB : (bothRows a b j1 j2).filter
      (fun r => tagOf (mergedCols a.cols b.cols j2) r == Value.str "both")
      = bothRows a b j1 j2 := by
    apply List.filter_eq_self.mpr
    intro r hr
    rw [tagOf_of_mem_bothRows hj2 hnd hr]
    rfl
  have hL : (leftOnlyRows a b j1 j2).filter
      (fun r => tagOf (mergedCols a.cols b.cols j2) r == Value.str "both") = [] := by
    apply List.filter_eq_nil_iff.mpr
    intro r hr
    rw [tagOf_of_mem_leftOnlyRows hj2 hnd hr]
    simp
  have hR : (rightOnlyRows a b j1 j2).filter
      (fun r => tagOf (mergedCols a.cols b.cols j2) r == Value.str "both") = [] := by
    apply List.filter_eq_nil_iff.mpr
    intro r hr
    rw [tagOf_of_mem_rightOnlyRows hj2 hnd hr]
    simp
  rw [hB, hL, hR]
  simp

theorem buildReport_notMatchedCount {a b : Table} {j1 j2 : Nat} (ctc : List String)
    (hj2 : colIdx b.cols "keycolumn" = some j2)
    (hnd : (mergedCols a.cols b.cols j2).Nodup) :
    notMatchedCount (buildReport ⟨mergedCols a.cols b.cols j2,
        bothRows a b j1 j2 ++ leftOnlyRows a b j1 j2 ++ rightOnlyRows a b j1 j2⟩ ctc)
      = Value.int ((leftOnlyRows a b j1 j2).length + (rightOnlyRows a b j1 j2).length) := by
  simp only [notMatchedCount, buildReport, List.filter_append]
  have hB : (bothRows a b j1 j2).filter
      (fun r => !(tagOf (mergedCols a.cols b.cols j2) r == Value.str "both")) = [] := by
    apply List.filter_eq_nil_iff.mpr
    intro r hr
    rw [tagOf_of_mem_bothRows hj2 hnd hr]
    simp
  have hL : (leftOnlyRows a b j1 j2).filter
      (fun r => !(tagOf (mergedCols a.cols b.cols j2) r == Value.str "both"))
      = leftOnlyRows a b j1 j2 := by
    apply List.filter_eq_self.mpr
    intro r hr
    rw [tagOf_of_mem_leftOnlyRows hj2 hnd hr]
    rfl
  have hR : (rightOnlyRows a b j1 j2).filter
      (fun r => !(tagOf (mergedCols a.cols b.cols j2) r == Value.str "both"))
      = rightOnlyRows a b j1 j2 := by
    apply List.filter_eq_self.mpr
    intro r hr
    rw [tagOf_of_mem_rightOnlyRows hj2 hnd hr]
    rfl
  rw [hB, hL, hR]
  simp

theorem tableKeys_eq {t : Table} {j : Nat} (h : colIdx t.cols "keycolumn" = some j) :
    tableKeys t = t.rows.map (keyVal j) := by
  rw [tableKeys, h]

theorem compare_files_ok {parse : Value → Option (Nat × Nat × Nat)} {df1 df2 : Table}
    {config : Config} {rep : Report}
    (h : compare_files parse df1 df2 config = Except.ok rep) :
    ∃ a b j1 j2,
      sortValues (prepTable parse df1 config.file1_key_column
        (config.date_columns.map lowerStr)) = Except.ok a ∧
      sortValues (prepTable parse df2 config.file2_key_column
        (config.date_columns.map lowerStr)) = Except.ok b ∧
      colIdx a.cols "keycolumn" = some j1 ∧ colIdx b.cols "keycolumn" = some j2 ∧
      (mergedCols a.cols b.cols j2).Nodup ∧
      rep = buildReport ⟨mergedCols a.cols b.cols j2,
        bothRows a b j1 j2 ++ leftOnlyRows a b j1 j2 ++ rightOnlyRows a b j1 j2⟩
        (config.columns_to_compare.map lowerStr) := by
  simp only [compare_files] at h
  split at h
  · exact absurd h (by simp)
  · rename_i a ha
    split at h
    · exact absurd h (by simp)
    · rename_i b hb
      split at h
      · exact absurd h (by simp)
      · rename_i m hm
        obtain ⟨j1, j2, hj1, hj2, hnd, rfl⟩ := mergeTables_ok hm
        exact ⟨a, b, j1, j2, ha, hb, hj1, hj2, hnd, (Except.ok.inj h).symm⟩

/-- C1: for every pair of input tables and every configuration on which
the comparison succeeds, the `Missing in File 1` section contains
exactly the join keys found only in table B (the rows tagged
`right_only` by the outer join), and the `Missing in File 2` section
contains exactly the join keys found only in table A (`left_only`). -/
theorem C1_missing_key_sets {parse : Value → Option (Nat × Nat × Nat)} {df1 df2 : Table}
    {config : Config} {rep : Report}
    (h : compare_files parse df1 df2 config = Except.ok rep) (k : Value) :
    ([k] ∈ rep.missingInFile1.rows ↔
      (k ∈ tableKeys (prepTable parse df2 config.file2_key_column
          (config.date_columns.map lowerStr)) ∧
       k ∉ tableKeys (prepTable parse df1 config.file1_key_column
          (config.date_columns.map lowerStr)))) ∧
    ([k] ∈ rep.missingInFile2.rows ↔
      (k ∈ tableKeys (prepTable parse df1 config.file1_key_column
          (config.date_columns.map lowerStr)) ∧
       k ∉ tableKeys (prepTable parse df2 config.file2_key_column
          (config.date_columns.map lowerStr)))) := by
  obtain ⟨a, b, j1, j2, ha, hb, hj1, hj2, hnd, rfl⟩ := compare_files_ok h
  have hka := tableKeys_perm_of_sortValues ha
  have hkb := tableKeys_perm_of_sortValues hb
  constructor
  · rw [buildReport_missing1 _ hj1 hj2 hnd]
    constructor
    · intro hk
      rw [List.mem_map] at hk
      obtain ⟨r2, hr2, hkk⟩ := hk
      rw [List.mem_filter] at hr2
      have hkeq : keyVal j2 r2 = k := by simpa using hkk
      have hnotin : keyVal j2 r2 ∉ a.rows.map (keyVal j1) := by simpa using hr2.2
      constructor
      · rw [← hkb.mem_iff, tableKeys_eq hj2]
        exact hkeq ▸ List.mem_map_of_mem _ hr2.1
      · rw [← hka.mem_iff, tableKeys_eq hj1]
        exact hkeq ▸ hnotin
    · rintro ⟨hk2, hk1⟩
      rw [← hkb.mem_iff, tableKeys_eq hj2] at hk2
      rw [← hka.mem_iff, tableKeys_eq hj1] at hk1
      rw [List.mem_map] at hk2
      obtain ⟨r2, hr2, hkeq⟩ := hk2
      rw [List.mem_map]
      refine ⟨r2, List.mem_filter.mpr ⟨hr2, by simpa [hkeq] using hk1⟩, by rw [hkeq]⟩
  · rw [buildReport_missing2 _ hj1 hj2 hnd]
    constructor
    · intro hk
      rw [List.mem_map] at hk
      obtain ⟨r1, hr1, hkk⟩ := hk
      rw [List.mem_filter] at hr1
      have hkeq : keyVal j1 r1 = k := by simpa using hkk
      have hnotin : keyVal j1 r1 ∉ b.rows.map (keyVal j2) := by simpa using hr1.2
      constructor
      · rw [← hka.mem_iff, tableKeys_eq hj1]
        exact hkeq ▸ List.mem_map_of_mem _ hr1.1
      · rw [← hkb.mem_iff, tableKeys_eq hj2]
        exact hkeq ▸ hnotin
    · rintro ⟨hk1, hk2⟩
      rw [← hka.mem_iff, tableKeys_eq hj1] at hk1
      rw [← hkb.mem_iff, tableKeys_eq hj2] at hk2
      rw [List.mem_map] at hk1
      obtain ⟨r1, hr1, hkeq⟩ := hk1
      rw [List.mem_map]
      refine ⟨r1, List.mem_filter.mpr ⟨hr1, by simpa [hkeq] using hk2⟩, by rw [hkeq]⟩

theorem C1_missing_key_sets_witness :
    compare_files parse0 ⟨["id", "amt"], [[Value.int 2, Value.str "5"]]⟩ ⟨["id", "amt"], []⟩
      ⟨"id", "id", ["amt"], [], []⟩ =
      Except.ok ⟨⟨["Description", "Count"],
          [[Value.str "Matched Records", Value.int 0],
           [Value.str "Not Matched Records", Value.int 1]]⟩,
        ⟨["KeyColumn", "amt"], []⟩, ⟨["keycolumn"], []⟩, ⟨["keycolumn"], [[Value.int 2]]⟩⟩ ∧
    (([Value.int 2] ∈ (Table.mk ["keycolumn"] ([] : List (List Value))).rows ↔
      (Value.int 2 ∈ tableKeys (prepTable parse0 ⟨["id", "amt"], []⟩ "id" ([].map lowerStr)) ∧
       Value.int 2 ∉ tableKeys (prepTable parse0 ⟨["id", "amt"], [[Value.int 2, Value.str "5"]]⟩
          "id" ([].map lowerStr)))) ∧
     ([Value.int 2] ∈ (Table.mk ["keycolumn"] [[Value.int 2]]).rows ↔
      (Value.int 2 ∈ tableKeys (prepTable parse0 ⟨["id", "amt"], [[Value.int 2, Value.str "5"]]⟩
          "id" ([].map lowerStr)) ∧
       Value.int 2 ∉ tableKeys (prepTable parse0 ⟨["id", "amt"], []⟩ "id" ([].map lowerStr))))) := by
  have h : compare_files parse0 ⟨["id", "amt"], [[Value.int 2, Value.str "5"]]⟩
      ⟨["id", "amt"], []⟩ ⟨"id", "id", ["amt"], [], []⟩ =
      Except.ok ⟨⟨["Description", "Count"],
          [[Value.str "Matched Records", Value.int 0],
           [Value.str "Not Matched Records", Value.int 1]]⟩,
        ⟨["KeyColumn", "amt"], []⟩, ⟨["keycolumn"], []⟩, ⟨["keycolumn"], [[Value.int 2]]⟩⟩ := by
    rfl
  exact ⟨h, C1_missing_key_sets h (Value.int 2)⟩

/-- C3: the `Matched Records` count equals the number of outer-join rows
whose key occurs in both (aligned) tables, and `Not Matched Records`
equals the number of join rows present on only one side (`left_only`
count plus `right_only` count), independent of per-column verdicts;
when the aligned tables have disjoint key sets the matched count is 0
and the two missing-key sections have as many rows as the respective
input tables. -/
theorem C3_summary_counts {parse : Value → Option (Nat × Nat × Nat)} {df1 df2 : Table}
    {config : Config} {a b : Table} {j1 j2 : Nat} {rep : Report}
    (h : compare_files parse df1 df2 config = Except.ok rep)
    (ha : sortValues (prepTable parse df1 config.file1_key_column
      (config.date_columns.map lowerStr)) = Except.ok a)
    (hb : sortValues (prepTable parse df2 config.file2_key_column
      (config.date_columns.map lowerStr)) = Except.ok b)
    (hj1 : colIdx a.cols "keycolumn" = some j1)
    (hj2 : colIdx b.cols "keycolumn" = some j2) :
    (matchedCount rep = Value.int
      ((bothRows a b j1 j2 ++ leftOnlyRows a b j1 j2 ++ rightOnlyRows a b j1 j2).countP
        (fun r => decide (rowGetD (mergedCols a.cols b.cols j2) r "keycolumn" ∈ tableKeys a ∧
          rowGetD (mergedCols a.cols b.cols j2) r "keycolumn" ∈ tableKeys b)))) ∧
    (notMatchedCount rep = Value.int
      ((bothRows a b j1 j2 ++ leftOnlyRows a b j1 j2 ++ rightOnlyRows a b j1 j2).countP
          (fun r => tagOf (mergedCols a.cols b.cols j2) r == Value.str "left_only")
        + (bothRows a b j1 j2 ++ leftOnlyRows a b j1 j2 ++ rightOnlyRows a b j1 j2).countP
          (fun r => tagOf (mergedCols a.cols b.cols j2) r == Value.str "right_only"))) ∧
    ((∀ x, x ∈ tableKeys a → x ∉ tableKeys b) →
      matchedCount rep = Value.int 0 ∧
      rep.missingInFile1.rows.length = df2.rows.length ∧
      rep.missingInFile2.rows.length = df1.rows.length) := by
  obtain ⟨a', b', j1', j2', ha', hb', hj1', hj2', hnd, rfl⟩ := compare_files_ok h
  have hae : a = a' := Except.ok.inj (ha.symm.trans ha')
  subst hae
  have hbe : b = b' := Except.ok.inj (hb.symm.trans hb')
  subst hbe
  have hj1e : j1 = j1' := Option.some.inj (hj1.symm.trans hj1')
  subst hj1e
  have hj2e : j2 = j2' := Option.some.inj (hj2.symm.trans hj2')
  subst hj2e
  have hj1get : a.cols[j1]? = some "keycolumn" := colIdx_getElem hj1
  have hB : (bothRows a b j1 j2).countP
      (fun r => decide (rowGetD (mergedCols a.cols b.cols j2) r "keycolumn" ∈ tableKeys a ∧
        rowGetD (mergedCols a.cols b.cols j2) r "keycolumn" ∈ tableKeys b))
      = (bothRows a b j1 j2).length := by
    apply List.countP_eq_length.mpr
    intro r hr
    obtain ⟨r1, hr1, r2, hr2, hk, rfl⟩ := mem_bothRows_iff.mp hr
    rw [List.append_assoc, key_of_padded_row hnd hj1get]
    simp only [decide_eq_true_eq]
    constructor
    · rw [tableKeys_eq hj1]
      exact List.mem_map_of_mem _ hr1
    · rw [tableKeys_eq hj2, ← hk]
      exact List.mem_map_of_mem _ hr2
  have hL : (leftOnlyRows a b j1 j2).countP
      (fun r => decide (rowGetD (mergedCols a.cols b.cols j2) r "keycolumn" ∈ tableKeys a ∧
        rowGetD (mergedCols a.cols b.cols j2) r "keycolumn" ∈ tableKeys b)) = 0 := by
    apply List.countP_eq_zero.mpr
    intro r hr
    obtain ⟨r1, hr1, hk, rfl⟩ := mem_leftOnlyRows_iff.mp hr
    rw [List.append_assoc, key_of_padded_row hnd hj1get]
    simp only [decide_eq_true_eq, not_and]
    intro _
    rw [tableKeys_eq hj2]
    exact hk
  have hR : (rightOnlyRows a b j1 j2).countP
      (fun r => decide (rowGetD (mergedCols a.cols b.cols j2) r "keycolumn" ∈ tableKeys a ∧
        rowGetD (mergedCols a.cols b.cols j2) r "keycolumn" ∈ tableKeys b)) = 0 := by
    apply List.countP_eq_zero.mpr
    intro r hr
    obtain ⟨r2, hr2, hk, rfl⟩ := mem_rightOnlyRows_iff.mp hr
    rw [List.append_assoc, key_of_rightOnly_row hnd hj1get]
    simp only [decide_eq_true_eq, not_and]
    intro hmem
    rw [tableKeys_eq hj1] at hmem
    exact absurd hmem hk
  have hLt : (bothRows a b j1 j2).countP
      (fun r => tagOf (mergedCols a.cols b.cols j2) r == Value.str "left_only") = 0 := by
    apply List.countP_eq_zero.mpr
    intro r hr
    rw [tagOf_of_mem_bothRows hj2 hnd hr]
    simp
  have hLt2 : (leftOnlyRows a b j1 j2).countP
      (fun r => tagOf (mergedCols a.cols b.cols j2) r == Value.str "left_only")
      = (leftOnlyRows a b j1 j2).length := by
    apply List.countP_eq_length.mpr
    intro r hr
    rw [tagOf_of_mem_leftOnlyRows hj2 hnd hr]
    rfl
  have hLt3 : (rightOnlyRows a b j1 j2).countP
      (fun r => tagOf (mergedCols a.cols b.cols j2) r == Value.str "left_only") = 0 := by
    apply List.countP_eq_zero.mpr
    intro r hr
    rw [tagOf_of_mem_rightOnlyRows hj2 hnd hr]
    simp
  have hRt : (bothRows a b j1 j2).countP
      (fun r => tagOf (mergedCols a.cols b.cols j2) r == Value.str "right_only") = 0 := by
    apply List.countP_eq_zero.mpr
    intro r hr
    rw [tagOf_of_mem_bothRows hj2 hnd hr]
    simp
  have hRt2 : (leftOnlyRows a b j1 j2).countP
      (fun r => tagOf (mergedCols a.cols b.cols j2) r == Value.str "right_only") = 0 := by
    apply List.countP_eq_zero.mpr
    intro r hr
    rw [tagOf_of_mem_leftOnlyRows hj2 hnd hr]
    simp
  have hRt3 : (rightOnlyRows a b j1 j2).countP
      (fun r => tagOf (mergedCols a.cols b.cols j2) r == Value.str "right_only")
      = (rightOnlyRows a b j1 j2).length := by
    apply List.countP_eq_length.mpr
    intro r hr
    rw [tagOf_of_mem_rightOnlyRows hj2 hnd hr]
    rfl
  refine ⟨?_, ?_, ?_⟩
  · rw [buildReport_matchedCount _ hj2 hnd]
    rw [List.countP_append, List.countP_append, hB, hL, hR]
    norm_num
  · rw [buildReport_notMatchedCount _ hj2 hnd]
    rw [List.countP_append, List.countP_append, List.countP_append, List.countP_append,
      hLt, hLt2, hLt3, hRt, hRt2, hRt3]
    norm_num
  · intro hdis
    have hBnil : bothRows a b j1 j2 = [] := by
      rw [List.eq_nil_iff_forall_not_mem]
      intro r hr
      obtain ⟨r1, hr1, r2, hr2, hk, -⟩ := mem_bothRows_iff.mp hr
      have h1 : keyVal j1 r1 ∈ tableKeys a := by
        rw [tableKeys_eq hj1]
        exact List.mem_map_of_mem _ hr1
      have h2 : keyVal j1 r1 ∈ tableKeys b := by
        rw [tableKeys_eq hj2, ← hk]
        exact List.mem_map_of_mem _ hr2
      exact hdis _ h1 h2
    refine ⟨?_, ?_, ?_⟩
    · rw [buildReport_matchedCount _ hj2 hnd, hBnil]
      rfl
    · rw [buildReport_missing1 _ hj1 hj2 hnd]
      rw [List.length_map]
      have : b.rows.filter
          (fun r2 => !((a.rows.map (keyVal j1)).contains (keyVal j2 r2))) = b.rows := by
        apply List.filter_eq_self.mpr
        intro r2 hr2
        have h2 : keyVal j2 r2 ∈ tableKeys b := by
          rw [tableKeys_eq hj2]
          exact List.mem_map_of_mem _ hr2
        have h1 : keyVal j2 r2 ∉ tableKeys a := fun hmem => hdis _ hmem h2
        rw [tableKeys_eq hj1] at h1
        simpa using h1
      rw [this]
      have hperm := (sortValues_ok hb).2
      rw [hperm.length_eq, prepTable_rows_length]
    · rw [buildReport_missing2 _ hj1 hj2 hnd]
      rw [List.length_map]
      have : a.rows.filter
          (fun r1 => !((b.rows.map (keyVal j2)).contains (keyVal j1 r1))) = a.rows := by
        apply List.filter_eq_self.mpr
        intro r1 hr1
        have h1 : keyVal j1 r1 ∈ tableKeys a := by
          rw [tableKeys_eq hj1]
          exact List.mem_map_of_mem _ hr1
        have h2 : keyVal j1 r1 ∉ tableKeys b := hdis _ h1
        rw [tableKeys_eq hj2] at h2
        simpa using h2
      rw [this]
      have hperm := (sortValues_ok ha).2
      rw [hperm.length_eq, prepTable_rows_length]

theorem C3_summary_counts_witness :
    matchedCount ⟨⟨["Description", "Count"],
        [[Value.str "Matched Records", Value.int 0],
         [Value.str "Not Matched Records", Value.int 1]]⟩,
      ⟨["KeyColumn", "amt"], []⟩, ⟨["keycolumn"], []⟩, ⟨["keycolumn"], [[Value.int 2]]⟩⟩
      = Value.int 0 ∧
    (Report.mk ⟨["Description", "Count"],
        [[Value.str "Matched Records", Value.int 0],
         [Value.str "Not Matched Records", Value.int 1]]⟩
      ⟨["KeyColumn", "amt"], []⟩ ⟨["keycolumn"], []⟩
      ⟨["keycolumn"], [[Value.int 2]]⟩).missingInFile1.rows.length = 0 ∧
    (Report.mk ⟨["Description", "Count"],
        [[Value.str "Matched Records", Value.int 0],
         [Value.str "Not Matched Records", Value.int 1]]⟩
      ⟨["KeyColumn", "amt"], []⟩ ⟨["keycolumn"], []⟩
      ⟨["keycolumn"], [[Value.int 2]]⟩).missingInFile2.rows.length = 1 := by
  have h : compare_files parse0 ⟨["id", "amt"], [[Value.int 2, Value.str "5"]]⟩
      ⟨["id", "amt"], []⟩ ⟨"id", "id", ["amt"], [], []⟩ =
      Except.ok ⟨⟨["Description", "Count"],
          [[Value.str "Matched Records", Value.int 0],
           [Value.str "Not Matched Records", Value.int 1]]⟩,
        ⟨["KeyColumn", "amt"], []⟩, ⟨["keycolumn"], []⟩, ⟨["keycolumn"], [[Value.int 2]]⟩⟩ := by
    rfl
  have ha : sortValues (prepTable parse0 ⟨["id", "amt"], [[Value.int 2, Value.str "5"]]⟩
      "id" (List.map lowerStr [])) =
      Except.ok ⟨["keycolumn", "amt"], [[Value.int 2, Value.str "5"]]⟩ := by rfl
  have hb : sortValues (prepTable parse0 ⟨["id", "amt"], []⟩ "id" (List.map lowerStr [])) =
      Except.ok ⟨["keycolumn", "amt"], []⟩ := by rfl
  have hj1 : colIdx (Table.mk ["keycolumn", "amt"]
      [[Value.int 2, Value.str "5"]]).cols "keycolumn" = some 0 := by rfl
  have hj2 : colIdx (Table.mk ["keycolumn", "amt"] ([] : List (List Value))).cols "keycolumn"
      = some 0 := by rfl
  have hc := C3_summary_counts h ha hb hj1 hj2
  have hdis : ∀ x, x ∈ tableKeys ⟨["keycolumn", "amt"], [[Value.int 2, Value.str "5"]]⟩ →
      x ∉ tableKeys ⟨["keycolumn", "amt"], ([] : List (List Value))⟩ := by
    intro x _ hx2
    have hnil : tableKeys ⟨["keycolumn", "amt"], ([] : List (List Value))⟩ = [] := by rfl
    rw [hnil] at hx2
    exact absurd hx2 (List.not_mem_nil x)
  exact hc.2.2 hdis

/-- C7 counterexample: with `columns_to_compare = ["amt"]` and `amt`
present only in table A, the claim demands a `Not Available` verdict;
but when the tables themselves carry columns literally named
`amt_file1` (in A) and `amt_file2` (in B), the dynamic label lookup
finds them and the matched row's verdict compares their values
(`"p | q"`) instead of reporting `Not Available`. -/
theorem C7_counterexample :
    compare_files parse0 ⟨["id", "amt", "amt_file1"],
        [[Value.int 1, Value.str "x", Value.str "p"]]⟩
      ⟨["id", "amt_file2"], [[Value.int 1, Value.str "q"]]⟩
      ⟨"id", "id", ["amt"], [], []⟩ =
      Except.ok ⟨⟨["Description", "Count"],
          [[Value.str "Matched Records", Value.int 1],
           [Value.str "Not Matched Records", Value.int 0]]⟩,
        ⟨["KeyColumn", "amt"], [[Value.int 1, Value.str "p | q"]]⟩,
        ⟨["keycolumn"], []⟩, ⟨["keycolumn"], []⟩⟩ ∧
    Value.str "p | q" ≠ Value.str "Not Available" := by
  exact ⟨by rfl, by simp⟩

theorem buildReport_detail_mem {M : Table} {ctc : List String} {r' : List Value}
    (hr' : r' ∈ (buildReport M ctc).detail.rows) :
    ∃ r0 ∈ M.rows, r' = rowGetD M.cols r0 "keycolumn" :: ctc.map (verdictCell M.cols r0) := by
  simp only [buildReport] at hr'
  rw [List.mem_map] at hr'
  obtain ⟨r0, hr0, rfl⟩ := hr'
  rw [List.mem_filter] at hr0
  exact ⟨r0, hr0.1, rfl⟩

/-- C7 (amended): for every compared column absent from at least one
aligned table, every matched row's verdict for that column is
`Not Available` — provided neither table itself carries a column
literally named `<col>_file1`, in which case the suffix lookup can hit
pre-existing columns and compare those instead. -/
theorem C7_not_available {parse : Value → Option (Nat × Nat × Nat)} {df1 df2 : Table}
    {config : Config} {a b : Table} {rep : Report} {col : String}
    (h : compare_files parse df1 df2 config = Except.ok rep)
    (ha : sortValues (prepTable parse df1 config.file1_key_column
      (config.date_columns.map lowerStr)) = Except.ok a)
    (hb : sortValues (prepTable parse df2 config.file2_key_column
      (config.date_columns.map lowerStr)) = Except.ok b)
    (habs : col ∉ a.cols ∨ col ∉ b.cols)
    (hlit1 : (col ++ "_file1") ∉ a.cols) (hlit2 : (col ++ "_file1") ∉ b.cols) :
    ∀ r ∈ rep.detail.rows, ∀ i, i < (config.columns_to_compare.map lowerStr).length →
      (config.columns_to_compare.map lowerStr).getD i "" = col →
      r.getD (i + 1) Value.missing = Value.str "Not Available" := by
  obtain ⟨a', b', j1, j2, ha', hb', hj1, hj2, hnd, rfl⟩ := compare_files_ok h
  have hae : a = a' := Except.ok.inj (ha.symm.trans ha')
  subst hae
  have hbe : b = b' := Except.ok.inj (hb.symm.trans hb')
  subst hbe
  have hc1 : (col ++ "_file1") ∉ mergedCols a.cols b.cols j2 := by
    intro hmem
    rw [mergedCols, List.append_assoc] at hmem
    rcases List.mem_append.mp hmem with hmem1 | hmem23
    · rw [List.mem_map] at hmem1
      obtain ⟨c, hc, hfc⟩ := hmem1
      by_cases hcond : c ≠ "keycolumn" ∧ c ∈ b.cols
      · rw [if_pos hcond] at hfc
        have hceq : c = col := string_append_right_cancel hfc
        subst hceq
        rcases habs with hA | hB
        · exact hA hc
        · exact hB hcond.2
      · rw [if_neg hcond] at hfc
        exact hlit1 (hfc ▸ hc)
    · rcases List.mem_append.mp hmem23 with hmem2 | hmem3
      · rw [List.mem_map] at hmem2
        obtain ⟨c, hc, hfc⟩ := hmem2
        by_cases hcond : c ≠ "keycolumn" ∧ c ∈ a.cols
        · rw [if_pos hcond] at hfc
          exact append_file2_ne_append_file1 c col hfc
        · rw [if_neg hcond] at hfc
          exact hlit2 (hfc ▸ List.mem_of_mem_eraseIdx hc)
      · rw [List.mem_singleton] at hmem3
        exact append_file1_ne_merge col hmem3
  intro r hr i hi hcol
  obtain ⟨r0, hr0, rfl⟩ := buildReport_detail_mem hr
  rw [List.getD_cons_succ]
  have hlen : i < (config.columns_to_compare.map lowerStr).length := hi
  rw [List.getD_eq_getElem _ _ hlen] at hcol
  rw [List.getD_eq_getElem?_getD, List.getElem?_map, List.getElem?_eq_getElem hlen]
  simp only [Option.map_some', Option.getD_some, hcol]
  rw [verdictCell]
  rw [if_neg (fun hand => hc1 hand.1)]

theorem C7_not_available_witness :
    ([Value.int 1, Value.str "Not Available"] : List Value).getD 1 Value.missing
      = Value.str "Not Available" := by
  have h : compare_files parse0 ⟨["id", "region"], [[Value.int 1, Value.str "west"]]⟩
      ⟨["id"], [[Value.int 1]]⟩ ⟨"id", "id", ["region"], [], []⟩ =
      Except.ok ⟨⟨["Description", "Count"],
          [[Value.str "Matched Records", Value.int 1],
           [Value.str "Not Matched Records", Value.int 0]]⟩,
        ⟨["KeyColumn", "region"], [[Value.int 1, Value.str "Not Available"]]⟩,
        ⟨["keycolumn"], []⟩, ⟨["keycolumn"], []⟩⟩ := by rfl
  have ha : sortValues (prepTable parse0 ⟨["id", "region"], [[Value.int 1, Value.str "west"]]⟩
      "id" (List.map lowerStr [])) =
      Except.ok ⟨["keycolumn", "region"], [[Value.int 1, Value.str "west"]]⟩ := by rfl
  have hb : sortValues (prepTable parse0 ⟨["id"], [[Value.int 1]]⟩ "id" (List.map lowerStr [])) =
      Except.ok ⟨["keycolumn"], [[Value.int 1]]⟩ := by rfl
  have habs : "region" ∉ (Table.mk ["keycolumn"] [[Value.int 1]]).cols := by decide
  have hlit1 : "region" ++ "_file1"
      ∉ (Table.mk ["keycolumn", "region"] [[Value.int 1, Value.str "west"]]).cols := by decide
  have hlit2 : "region" ++ "_file1" ∉ (Table.mk ["keycolumn"] [[Value.int 1]]).cols := by decide
  exact C7_not_available h ha hb (Or.inr habs) hlit1 hlit2
    [Value.int 1, Value.str "Not Available"] (by decide) 0 (by decide) (by rfl)

/-- C2 counterexample: the claim says a missing value versus a present
value always yields a mismatch; but a missing cell renders as the
string "nan", so comparing a missing cell against the present string
value "nan" yields `Matched`. -/
theorem C2_counterexample :
    (compare_files parse0 ⟨["id", "v"], [[Value.int 1, Value.missing]]⟩
        ⟨["id", "v"], [[Value.int 1, Value.str "nan"]]⟩
        ⟨"id", "id", ["v"], [], []⟩).map Report.detail =
      Except.ok ⟨["KeyColumn", "v"], [[Value.int 1, Value.str "Matched"]]⟩ ∧
    Value.str "nan" ≠ Value.missing ∧ Value.str "Matched" ≠ Value.str "nan | nan" := by
  exact ⟨by rfl, by simp, by simp⟩

/-- C2 (amended): for every matched row and every compared column
present on both sides of the join, the verdict converts both cell
values to their canonical string form, trims surrounding whitespace and
tests exact case-sensitive equality — equal yields `Matched`, unequal
yields the string `"valueA | valueB"`; a missing cell's canonical
string form is "nan", so two missing cells match and a missing cell
versus a present one mismatches unless the present value's trimmed
string form is itself "nan".  Concretely: `" Yes "` vs `"Yes"` is
`Matched`, `"Yes"` vs `"yes"` is `"Yes | yes"`, missing vs missing is
`Matched`, and missing vs `"5"` is `"nan | 5"`. -/
theorem C2_verdict_rule (cols : List String) (row : List Value) (column : String)
    (h1 : (column ++ "_file1") ∈ cols) (h2 : (column ++ "_file2") ∈ cols) :
    (verdictCell cols row column =
      (if trimStr (pyStr (rowGetD cols row (column ++ "_file1")))
          = trimStr (pyStr (rowGetD cols row (column ++ "_file2")))
       then Value.str "Matched"
       else Value.str (trimStr (pyStr (rowGetD cols row (column ++ "_file1"))) ++ " | "
         ++ trimStr (pyStr (rowGetD cols row (column ++ "_file2")))))) ∧
    pyStr Value.missing = "nan" ∧
    (compare_files parse0 ⟨["id", "v"], [[Value.int 1, Value.str " Yes "]]⟩
        ⟨["id", "v"], [[Value.int 1, Value.str "Yes"]]⟩
        ⟨"id", "id", ["v"], [], []⟩).map Report.detail =
      Except.ok ⟨["KeyColumn", "v"], [[Value.int 1, Value.str "Matched"]]⟩ ∧
    (compare_files parse0 ⟨["id", "v"], [[Value.int 1, Value.str "Yes"]]⟩
        ⟨["id", "v"], [[Value.int 1, Value.str "yes"]]⟩
        ⟨"id", "id", ["v"], [], []⟩).map Report.detail =
      Except.ok ⟨["KeyColumn", "v"], [[Value.int 1, Value.str "Yes | yes"]]⟩ ∧
    (compare_files parse0 ⟨["id", "v"], [[Value.int 1, Value.missing]]⟩
        ⟨["id", "v"], [[Value.int 1, Value.missing]]⟩
        ⟨"id", "id", ["v"], [], []⟩).map Report.detail =
      Except.ok ⟨["KeyColumn", "v"], [[Value.int 1, Value.str "Matched"]]⟩ ∧
    (compare_files parse0 ⟨["id", "v"], [[Value.int 1, Value.missing]]⟩
        ⟨["id", "v"], [[Value.int 1, Value.str "5"]]⟩
        ⟨"id", "id", ["v"], [], []⟩).map Report.detail =
      Except.ok ⟨["KeyColumn", "v"], [[Value.int 1, Value.str "nan | 5"]]⟩ := by
  refine ⟨?_, rfl, by rfl, by rfl, by rfl, by rfl⟩
  rw [verdictCell, if_pos ⟨h1, h2⟩]

theorem C2_verdict_rule_witness :
    verdictCell ["keycolumn", "v_file1", "v_file2", "_merge"]
      [Value.int 1, Value.str " Yes ", Value.str "Yes", Value.str "both"] "v"
      = Value.str "Matched" := by
  have h := (C2_verdict_rule ["keycolumn", "v_file1", "v_file2", "_merge"]
    [Value.int 1, Value.str " Yes ", Value.str "Yes", Value.str "both"] "v"
    (by decide) (by decide)).1
  exact h.trans (by rfl)

theorem sortValues_error_eq {t : Table} {e : PyError} (h : sortValues t = Except.error e) :
    e = PyError.keyError "keycolumn" := by
  unfold sortValues at h
  cases hc : colIdx t.cols "keycolumn" with
  | none =>
    rw [hc] at h
    exact (Except.error.inj h).symm
  | some j =>
    rw [hc] at h
    exact absurd h (by simp)

/-- C4 counterexample: the designated key column `id` exists in neither
table, yet the comparison does not fail — the tables happen to carry a
column already labelled `keycolumn`, the case-sensitive rename silently
misses, and the run completes and produces a full report. -/
theorem C4_counterexample :
    "id" ∉ (Table.mk ["keycolumn"] [[Value.int 1]]).cols ∧
    compare_files parse0 ⟨["keycolumn"], [[Value.int 1]]⟩ ⟨["keycolumn"], [[Value.int 1]]⟩
      ⟨"id", "id", [], [], []⟩ =
      Except.ok ⟨⟨["Description", "Count"],
          [[Value.str "Matched Records", Value.int 1],
           [Value.str "Not Matched Records", Value.int 0]]⟩,
        ⟨["KeyColumn"], [[Value.int 1]]⟩, ⟨["keycolumn"], []⟩, ⟨["keycolumn"], []⟩⟩ := by
  exact ⟨by decide, by rfl⟩

/-- C4 (amended): when, after the case-sensitive key rename and
lower-casing, a table has no column labelled `keycolumn`, the run
aborts at the sort step with `KeyError('keycolumn')` and no report is
produced; in particular this happens when the designated key column is
absent and no header case-folds to `keycolumn`.  (When some header does
case-fold to `keycolumn`, the run silently proceeds with that column as
the key, as the counterexample shows; and the failure is raised only
after renaming, lower-casing and date normalization, not before all
work.) -/
theorem C4_key_error (parse : Value → Option (Nat × Nat × Nat)) (df1 df2 : Table)
    (config : Config) :
    (("keycolumn" ∉ (prepTable parse df1 config.file1_key_column
        (config.date_columns.map lowerStr)).cols ∨
      "keycolumn" ∉ (prepTable parse df2 config.file2_key_column
        (config.date_columns.map lowerStr)).cols) →
      compare_files parse df1 df2 config = Except.error (PyError.keyError "keycolumn")) ∧
    ((config.file1_key_column ∉ df1.cols ∧ ∀ c ∈ df1.cols, lowerStr c ≠ "keycolumn") →
      "keycolumn" ∉ (prepTable parse df1 config.file1_key_column
        (config.date_columns.map lowerStr)).cols) ∧
    ((config.file2_key_column ∉ df2.cols ∧ ∀ c ∈ df2.cols, lowerStr c ≠ "keycolumn") →
      "keycolumn" ∉ (prepTable parse df2 config.file2_key_column
        (config.date_columns.map lowerStr)).cols) := by
  refine ⟨?_, ?_, ?_⟩
  · intro h
    simp only [compare_files]
    rcases h with hA | hB
    · rw [(sortValues_error_iff _).mpr hA]
    · cases hA : sortValues (prepTable parse df1 config.file1_key_column
          (config.date_columns.map lowerStr)) with
      | error e => rw [sortValues_error_eq hA]
      | ok a => rw [(sortValues_error_iff _).mpr hB]
  · rintro ⟨hk, hlow⟩ hmem
    rw [prepTable_cols] at hmem
    rw [List.mem_map] at hmem
    obtain ⟨c, hc, hfc⟩ := hmem
    have hck : c ≠ config.file1_key_column := fun e => hk (e ▸ hc)
    rw [if_neg hck] at hfc
    exact hlow c hc hfc
  · rintro ⟨hk, hlow⟩ hmem
    rw [prepTable_cols] at hmem
    rw [List.mem_map] at hmem
    obtain ⟨c, hc, hfc⟩ := hmem
    have hck : c ≠ config.file2_key_column := fun e => hk (e ▸ hc)
    rw [if_neg hck] at hfc
    exact hlow c hc hfc

theorem C4_key_error_witness :
    compare_files parse0 ⟨["pk"], []⟩ ⟨["pk"], []⟩ ⟨"id", "id", [], [], []⟩ =
      Except.error (PyError.keyError "keycolumn") := by
  have hne : "keycolumn" ∉ (prepTable parse0 ⟨["pk"], []⟩ "id" (List.map lowerStr [])).cols := by
    decide
  exact (C4_key_error parse0 ⟨["pk"], []⟩ ⟨["pk"], []⟩ ⟨"id", "id", [], [], []⟩).1 (Or.inl hne)

/-- C10: the comparison output is independent of the `decimal_columns`
configuration field — the field is read but never used, so two
configurations differing only in it produce identical results (all four
report sections, and identically any error). -/
theorem C10_decimal_columns_unused (parse : Value → Option (Nat × Nat × Nat))
    (df1 df2 : Table) (k1 k2 : String) (ctc dc d d' : List String) :
    compare_files parse df1 df2 ⟨k1, k2, ctc, dc, d⟩ =
      compare_files parse df1 df2 ⟨k1, k2, ctc, dc, d'⟩ := by
  rfl

/-! Cell-level behaviour of date normalization. -/

theorem normalizeColumn_row_length (p : Value → Option (Nat × Nat × Nat)) (t : Table)
    (c : String) (i : Nat) :
    ((normalizeColumn p t c).rows.getD i []).length = (t.rows.getD i []).length := by
  unfold normalizeColumn
  split
  · rename_i j0 hj0
    by_cases hi : i < t.rows.length
    · simp [List.getD_eq_getElem?_getD, List.getElem?_eq_getElem hi]
    · have h1 : t.rows[i]? = none := List.getElem?_eq_none (by omega)
      simp [List.getD_eq_getElem?_getD, h1]
  · rfl

theorem normalizeColumn_cell (p : Value → Option (Nat × Nat × Nat)) {t : Table} (c : String)
    (hnd : t.cols.Nodup) {i j : Nat}
    (hj : j < (t.rows.getD i []).length) (hjc : j < t.cols.length) :
    ((normalizeColumn p t c).rows.getD i []).getD j Value.missing =
      (if t.cols.getD j "" = c
       then normCell p ((t.rows.getD i []).getD j Value.missing)
       else (t.rows.getD i []).getD j Value.missing) := by
  have hi : i < t.rows.length := by
    by_contra hi
    have hempty : t.rows.getD i [] = [] := by
      rw [List.getD_eq_getElem?_getD, List.getElem?_eq_none (by omega)]
      rfl
    rw [hempty] at hj
    exact absurd hj (by simp)
  have hrow : t.rows.getD i [] = t.rows[i] := List.getD_eq_getElem _ _ hi
  unfold normalizeColumn
  split
  · rename_i j0 hj0
    have hj0get : t.cols[j0]? = some c := colIdx_getElem hj0
    have hj0lt : j0 < t.cols.length := colIdx_lt hj0
    have hj0val : t.cols[j0] = c := by
      rw [List.getElem?_eq_some_iff] at hj0get
      exact hj0get.2
    have hstep : (Table.mk t.cols (t.rows.map
        (fun row => row.set j0 (normCell p (row.getD j0 Value.missing))))).rows.getD i []
        = (t.rows[i]).set j0 (normCell p ((t.rows[i]).getD j0 Value.missing)) := by
      simp [List.getD_eq_getElem?_getD, List.getElem?_eq_getElem hi]
    rw [hstep]
    by_cases hjj : j = j0
    · subst hjj
      have hcond : t.cols.getD j "" = c := by
        rw [List.getD_eq_getElem _ _ hjc]
        exact hj0val
      rw [if_pos hcond]
      rw [hrow] at hj
      simp [List.getD_eq_getElem?_getD, List.getElem?_set_self hj, hrow,
        List.getElem?_eq_getElem hi]
    · have hcond : t.cols.getD j "" ≠ c := by
        rw [List.getD_eq_getElem _ _ hjc]
        intro e
        have hinj := List.nodup_iff_injective_getElem.mp hnd
        have : (⟨j, hjc⟩ : Fin t.cols.length) = ⟨j0, hj0lt⟩ := by
          apply hinj
          simp [e, hj0val]
        exact hjj (congrArg Fin.val this)
      rw [if_neg hcond]
      rw [List.getD_eq_getElem?_getD, List.getElem?_set_ne (fun e => hjj e.symm)]
      rw [hrow, List.getD_eq_getElem?_getD]
  · rename_i hnone
    have hcond : t.cols.getD j "" ≠ c := by
      intro e
      have hmem : t.cols.getD j "" ∈ t.cols := by
        rw [List.getD_eq_getElem _ _ hjc]
        exact List.getElem_mem _
      rw [e] at hmem
      exact (colIdx_eq_none_iff _ _).mp hnone hmem
    rw [if_neg hcond]

/-- C6: for every table and every set of date-column names (and any
parsing behaviour), `normalize_dates` keeps the column labels and the
row count, replaces each cell of each named column present in the table
by its parsed date — a cell whose parse fails becomes the null/missing
marker instead of raising — and leaves every cell of a column not named
untouched; named columns absent from the table are silently skipped
(they touch nothing and raise no error). -/
theorem C6_normalize_dates_spec (p : Value → Option (Nat × Nat × Nat)) (t : Table)
    (dcols : List String) (hnd : t.cols.Nodup) (hdnd : dcols.Nodup) :
    (normalize_dates p t dcols).cols = t.cols ∧
    (normalize_dates p t dcols).rows.length = t.rows.length ∧
    (∀ i j, j < (t.rows.getD i []).length → j < t.cols.length →
      ((normalize_dates p t dcols).rows.getD i []).getD j Value.missing =
        (if t.cols.getD j "" ∈ dcols
         then normCell p ((t.rows.getD i []).getD j Value.missing)
         else (t.rows.getD i []).getD j Value.missing)) ∧
    (∀ v, p v = none → normCell p v = Value.missing) ∧
    (∀ v y m d, p v = some (y, m, d) → normCell p v = Value.date y m d) := by
  refine ⟨?_, ?_, ?_, fun v hv => by simp [normCell, hv], fun v y m d hv => by simp [normCell, hv]⟩
  · exact normalize_dates_cols p dcols t
  · exact normalize_dates_rows_length p dcols t
  · induction dcols generalizing t with
    | nil =>
      intro i j hj hjc
      simp [normalize_dates]
    | cons c rest ih =>
      intro i j hj hjc
      have hstep : normalize_dates p t (c :: rest)
          = normalize_dates p (normalizeColumn p t c) rest := rfl
      have hc1 := normalizeColumn_cols p t c
      have hnd1 : (normalizeColumn p t c).cols.Nodup := by rw [hc1]; exact hnd
      have hdnd1 : rest.Nodup := (List.nodup_cons.mp hdnd).2
      have hcnot : c ∉ rest := (List.nodup_cons.mp hdnd).1
      have hj' : j < ((normalizeColumn p t c).rows.getD i []).length := by
        rw [normalizeColumn_row_length]
        exact hj
      have hjc' : j < (normalizeColumn p t c).cols.length := by
        rw [hc1]
        exact hjc
      rw [hstep, ih (normalizeColumn p t c) hnd1 hdnd1 i j hj' hjc', hc1]
      rw [normalizeColumn_cell p c hnd hj hjc]
      by_cases hlab : t.cols.getD j "" = c
      · rw [if_neg (fun h => hcnot (hlab ▸ h))]
        rw [if_pos hlab]
        rw [if_pos (List.mem_cons.mpr (Or.inl hlab))]
      · rw [if_neg hlab]
        by_cases hmem : t.cols.getD j "" ∈ rest
        · rw [if_pos hmem, if_pos (List.mem_cons_of_mem c hmem)]
        · rw [if_neg hmem, if_neg (fun h => (List.mem_cons.mp h).elim hlab hmem)]

theorem C6_normalize_dates_spec_witness :
    ((normalize_dates parse1 ⟨["d", "x"], [[Value.str "2024-01-01", Value.int 7]]⟩
        ["d", "missingcol"]).rows.getD 0 []).getD 0 Value.missing = Value.date 2024 1 1 ∧
    ((normalize_dates parse1 ⟨["d", "x"], [[Value.str "2024-01-01", Value.int 7]]⟩
        ["d", "missingcol"]).rows.getD 0 []).getD 1 Value.missing = Value.int 7 ∧
    (normalize_dates parse1 ⟨["d", "x"], [[Value.str "2024-01-01", Value.int 7]]⟩
        ["d", "missingcol"]).cols = ["d", "x"] := by
  have hc := C6_normalize_dates_spec parse1
    ⟨["d", "x"], [[Value.str "2024-01-01", Value.int 7]]⟩ ["d", "missingcol"]
    (by decide) (by decide)
  refine ⟨?_, ?_, hc.1⟩
  · exact (hc.2.2.1 0 0 (by decide) (by decide)).trans (by rfl)
  · exact (hc.2.2.1 0 1 (by decide) (by decide)).trans (by rfl)

/-- C8 counterexample: the two runs differ only in the letter case of a
source column header (`Id` versus `id`), yet one aborts with a
`KeyError` and the other succeeds — the key-column rename is
case-sensitive and happens before the headers are case-folded, so
letter case in the key header does affect the result. -/
theorem C8_counterexample :
    lowerStr "Id" = lowerStr "id" ∧
    compare_files parse0 ⟨["Id"], [[Value.int 1]]⟩ ⟨["id"], [[Value.int 1]]⟩
      ⟨"id", "id", [], [], []⟩ = Except.error (PyError.keyError "keycolumn") ∧
    compare_files parse0 ⟨["id"], [[Value.int 1]]⟩ ⟨["id"], [[Value.int 1]]⟩
      ⟨"id", "id", [], [], []⟩ =
      Except.ok ⟨⟨["Description", "Count"],
          [[Value.str "Matched Records", Value.int 1],
           [Value.str "Not Matched Records", Value.int 0]]⟩,
        ⟨["KeyColumn"], [[Value.int 1]]⟩, ⟨["keycolumn"], []⟩, ⟨["keycolumn"], []⟩⟩ := by
  exact ⟨by rfl, by rfl, by rfl⟩

theorem map_rename_lower_congr {k : String} {cs cs' : List String}
    (hc : List.Forall₂ (fun c c' => lowerStr c = lowerStr c' ∧ (c = k ↔ c' = k)) cs cs') :
    cs'.map (fun c => lowerStr (if c = k then "KeyColumn" else c))
      = cs.map (fun c => lowerStr (if c = k then "KeyColumn" else c)) := by
  induction hc with
  | nil => rfl
  | @cons a b l1 l2 h htail ih =>
    simp only [List.map_cons, ih]
    congr 1
    by_cases hbk : b = k
    · rw [if_pos hbk, if_pos (h.2.mpr hbk)]
    · rw [if_neg hbk, if_neg (fun e => hbk (h.2.mp e)), h.1]

theorem prepTable_congr {parse : Value → Option (Nat × Nat × Nat)} {t t' : Table}
    {k : String} {dc : List String} (hr : t'.rows = t.rows)
    (hc : List.Forall₂ (fun c c' => lowerStr c = lowerStr c' ∧ (c = k ↔ c' = k))
      t.cols t'.cols) :
    prepTable parse t' k dc = prepTable parse t k dc := by
  unfold prepTable
  have heq : lowerCols (renameKey t' k) = lowerCols (renameKey t k) := by
    unfold lowerCols renameKey
    rw [List.map_map, List.map_map, hr]
    congr 1
    simpa [Function.comp] using map_rename_lower_congr hc
  rw [heq]

/-- C8 (amended): comparison results are invariant under changes of
letter case in the configured `columns_to_compare` / `date_columns`
lists and in the source column headers, provided each header's exact
(case-sensitive) agreement with its table's configured key column is
preserved; the key-column rename is case-sensitive and precedes the
case-folding, so a case change in the key header itself (or one that
makes another header coincide with the configured key) can change the
result, as the counterexample shows. -/
theorem C8_case_invariance {parse : Value → Option (Nat × Nat × Nat)}
    {df1 df1' df2 df2' : Table} {config config' : Config}
    (hk1 : config'.file1_key_column = config.file1_key_column)
    (hk2 : config'.file2_key_column = config.file2_key_column)
    (hctc : config'.columns_to_compare.map lowerStr = config.columns_to_compare.map lowerStr)
    (hdc : config'.date_columns.map lowerStr = config.date_columns.map lowerStr)
    (h1r : df1'.rows = df1.rows) (h2r : df2'.rows = df2.rows)
    (h1c : List.Forall₂ (fun c c' => lowerStr c = lowerStr c' ∧
      (c = config.file1_key_column ↔ c' = config.file1_key_column)) df1.cols df1'.cols)
    (h2c : List.Forall₂ (fun c c' => lowerStr c = lowerStr c' ∧
      (c = config.file2_key_column ↔ c' = config.file2_key_column)) df2.cols df2'.cols) :
    compare_files parse df1' df2' config' = compare_files parse df1 df2 config := by
  have e1 : prepTable parse df1' config'.file1_key_column
      (List.map lowerStr config'.date_columns)
      = prepTable parse df1 config.file1_key_column
        (List.map lowerStr config.date_columns) := by
    rw [hk1, hdc]
    exact prepTable_congr h1r h1c
  have e2 : prepTable parse df2' config'.file2_key_column
      (List.map lowerStr config'.date_columns)
      = prepTable parse df2 config.file2_key_column
        (List.map lowerStr config.date_columns) := by
    rw [hk2, hdc]
    exact prepTable_congr h2r h2c
  simp only [compare_files, e1, e2, hctc]

theorem C8_case_invariance_witness :
    compare_files parse0 ⟨["id", "AMOUNT"], [[Value.int 1, Value.str "5"]]⟩
      ⟨["id", "amount"], [[Value.int 1, Value.str "5"]]⟩ ⟨"id", "id", ["amount"], [], []⟩
    = compare_files parse0 ⟨["id", "Amount"], [[Value.int 1, Value.str "5"]]⟩
      ⟨["id", "amount"], [[Value.int 1, Value.str "5"]]⟩ ⟨"id", "id", ["Amount"], [], []⟩ := by
  refine C8_case_invariance (by rfl) (by rfl) (by rfl) (by rfl) (by rfl) (by rfl) ?_ ?_
  · exact List.Forall₂.cons (by decide) (List.Forall₂.cons (by decide) List.Forall₂.nil)
  · exact List.Forall₂.cons (by decide) (List.Forall₂.cons (by decide) List.Forall₂.nil)

/-! The heap-level frame property: every operation of `compare_files`
writes only to freshly allocated objects. -/

theorem getD_append_of_lt {α : Type} (l l' : List α) (d : α) (r : Nat)
    (h : r < l.length) : (l ++ l').getD r d = l.getD r d := by
  rw [List.getD_eq_getElem?_getD, List.getD_eq_getElem?_getD, List.getElem?_append_left h]

theorem getD_set_of_ne {α : Type} {l : List α} {m r : Nat} {t : α} {d : α}
    (h : r ≠ m) : (l.set m t).getD r d = l.getD r d := by
  rw [List.getD_eq_getElem?_getD, List.getD_eq_getElem?_getD,
    List.getElem?_set_ne (Ne.symm h)]

theorem getD_heap_ops {heap : List Table} {r : Nat} (hr : r < heap.length)
    (c1 c2 x1 x2 y1 y2 d : Table) :
    ((((((heap ++ [c1]) ++ [c2]).set heap.length x1).set ((heap ++ [c1]).length) x2).set
        heap.length y1).set ((heap ++ [c1]).length) y2).getD r d = heap.getD r d := by
  rw [getD_set_of_ne (by simp; omega), getD_set_of_ne (by omega),
    getD_set_of_ne (by simp; omega), getD_set_of_ne (by omega),
    getD_append_of_lt _ _ _ _ (by simp; omega), getD_append_of_lt _ _ _ _ hr]

theorem length_heap_ops (heap : List Table) (c1 c2 x1 x2 y1 y2 : Table) :
    ((((((heap ++ [c1]) ++ [c2]).set heap.length x1).set ((heap ++ [c1]).length) x2).set
        heap.length y1).set ((heap ++ [c1]).length) y2).length = heap.length + 2 := by
  simp

theorem getD_heap_ops_app1 {heap : List Table} {r : Nat} (hr : r < heap.length)
    (c1 c2 x1 x2 y1 y2 a d : Table) :
    (((((((heap ++ [c1]) ++ [c2]).set heap.length x1).set ((heap ++ [c1]).length) x2).set
        heap.length y1).set ((heap ++ [c1]).length) y2) ++ [a]).getD r d = heap.getD r d := by
  rw [getD_append_of_lt _ _ _ _ (by rw [length_heap_ops]; omega), getD_heap_ops hr]

theorem getD_heap_ops_app2 {heap : List Table} {r : Nat} (hr : r < heap.length)
    (c1 c2 x1 x2 y1 y2 a b d : Table) :
    (((((((heap ++ [c1]) ++ [c2]).set heap.length x1).set ((heap ++ [c1]).length) x2).set
        heap.length y1).set ((heap ++ [c1]).length) y2) ++ [a] ++ [b]).getD r d
      = heap.getD r d := by
  rw [getD_append_of_lt _ _ _ _ (by simp [length_heap_ops]; omega), getD_heap_ops_app1 hr]

theorem getD_heap_ops_app3 {heap : List Table} {r : Nat} (hr : r < heap.length)
    (c1 c2 x1 x2 y1 y2 a b m d : Table) :
    (((((((heap ++ [c1]) ++ [c2]).set heap.length x1).set ((heap ++ [c1]).length) x2).set
        heap.length y1).set ((heap ++ [c1]).length) y2) ++ [a] ++ [b] ++ [m]).getD r d
      = heap.getD r d := by
  rw [getD_append_of_lt _ _ _ _ (by simp [length_heap_ops]; omega), getD_heap_ops_app2 hr]

theorem compare_files_heap_preserves (parse : Value → Option (Nat × Nat × Nat))
    (heap : List Table) (i j : Nat) (config : Config) (r : Nat) (hr : r < heap.length) :
    (compare_files_heap parse heap i j config).1.getD r emptyTable
      = heap.getD r emptyTable := by
  simp only [compare_files_heap, heapSet]
  split
  · exact getD_heap_ops hr _ _ _ _ _ _ _
  · split
    · exact getD_heap_ops_app1 hr _ _ _ _ _ _ _ _
    · split
      · exact getD_heap_ops_app2 hr _ _ _ _ _ _ _ _ _
      · exact getD_heap_ops_app3 hr _ _ _ _ _ _ _ _ _ _

/-- C9: running a comparison leaves the caller-owned input frames
unchanged — `df.rename` and `df.sort_values` allocate fresh objects and
the in-place operations (column-label assignment, `normalize_dates`)
mutate only those copies, so after `compare_files` returns or fails the
heap cells the caller's references point at hold the same tables as
before the call. -/
theorem C9_inputs_unchanged (parse : Value → Option (Nat × Nat × Nat))
    (heap : List Table) (i j : Nat) (config : Config)
    (hi : i < heap.length) (hj : j < heap.length) :
    (compare_files_heap parse heap i j config).1.getD i emptyTable
      = heap.getD i emptyTable ∧
    (compare_files_heap parse heap i j config).1.getD j emptyTable
      = heap.getD j emptyTable :=
  ⟨compare_files_heap_preserves parse heap i j config i hi,
   compare_files_heap_preserves parse heap i j config j hj⟩

theorem C9_inputs_unchanged_witness :
    (compare_files_heap parse0 [⟨["id"], [[Value.int 1]]⟩, ⟨["id"], [[Value.int 2]]⟩] 0 1
        ⟨"id", "id", [], [], []⟩).1.getD 0 emptyTable
      = Table.mk ["id"] [[Value.int 1]] ∧
    (compare_files_heap parse0 [⟨["id"], [[Value.int 1]]⟩, ⟨["id"], [[Value.int 2]]⟩] 0 1
        ⟨"id", "id", [], [], []⟩).1.getD 1 emptyTable
      = Table.mk ["id"] [[Value.int 2]] := by
  have h := C9_inputs_unchanged parse0
    [⟨["id"], [[Value.int 1]]⟩, ⟨["id"], [[Value.int 2]]⟩] 0 1
    ⟨"id", "id", [], [], []⟩ (by decide) (by decide)
  exact ⟨h.1.trans (by rfl), h.2.trans (by rfl)⟩
